import Mathlib

/-!
Shallow embedding of the OSC 1.1 codec in `src/twisted/protocols/osc.py`
(module `twisted.protocols.osc`, Python 2).

Byte strings (Python 2 `str`) are modelled as `List Nat`, one entry per
byte.  Python exceptions are modelled by an explicit error type: the
codec's own `OscError`, and the untyped faults `struct.error` (raised by
`struct.pack`/`struct.unpack` on short input) and `KeyError` (raised by a
dict lookup on a missing key).  Python's `%` on negative numbers agrees
with Lean's `Int.emod` (both return a result in `[0, modulus)`), and
Python slices clamp out-of-range indices, which the `pySlice*` helpers
reproduce.
-/

namespace Osc

abbrev Bytes := List Nat

/-- Byte string literal helper: ASCII codes of a Lean string. -/
def strBytes (s : String) : Bytes := s.data.map Char.toNat

/-- `_ceilToMultipleOfFour(num)` from the source: `num + (4 - (num % 4))`.
Stated over `Int` because `Message.fromBinary`'s helper can feed it the
value `-1` (Python `string.find` miss). -/
def ceilToMultipleOfFour (num : Int) : Int := num + (4 - num % 4)

/-- The same expression on `Nat` arguments (every call site except the
`string.find` miss passes a nonnegative length). -/
def ceil4 (n : Nat) : Nat := n + (4 - n % 4)

theorem ceilToMultipleOfFour_natCast (n : Nat) :
    ceilToMultipleOfFour (n : Int) = (ceil4 n : Int) := by
  simp only [ceilToMultipleOfFour, ceil4]
  omega

/-- Python `data[:stop]` for an `Int` index (negative indices count from
the end, clamped at the ends). -/
def pySliceTo (l : Bytes) (stop : Int) : Bytes :=
  if stop < 0 then l.take ((l.length : Int) + stop).toNat else l.take stop.toNat

/-- Python `data[start:]` for an `Int` index. -/
def pySliceFrom (l : Bytes) (start : Int) : Bytes :=
  if start < 0 then l.drop ((l.length : Int) + start).toNat else l.drop start.toNat

/-- Python `data[start:stop]` for nonnegative `start` (the only form the
source uses with two indices, in `BlobArgument.fromBinary`). -/
def pySlice (l : Bytes) (start stop : Int) : Bytes :=
  (pySliceTo l stop).drop start.toNat

/-- Python `string.find(data, "\0")`: index of the first NUL byte, `-1`
when there is none. -/
def pyFindNull : Bytes → Int
  | [] => -1
  | b :: rest =>
    if b = 0 then 0
    else
      let r := pyFindNull rest
      if r < 0 then -1 else r + 1

/-- `struct.pack(">i", v)` / `struct.pack(">l", v)`: 4 bytes, big endian,
two's complement.  (Python raises `struct.error` for values outside the
32-bit range; every value packed in this file is in range.) -/
def pack32 (v : Int) : Bytes :=
  let u := (v % 4294967296).toNat
  [u / 16777216 % 256, u / 65536 % 256, u / 256 % 256, u % 256]

/-- `struct.unpack(">i", b)` on exactly 4 bytes: big-endian two's
complement. -/
def int32FromBytes (b : Bytes) : Int :=
  let u := b.foldl (fun acc x => acc * 256 + x) (0 : Nat)
  if 2147483648 ≤ u then (u : Int) - 4294967296 else (u : Int)

/-- Exceptions that can escape the decoding paths of the source. -/
inductive PyErr where
  | oscError
  | structError
  | keyError
deriving DecidableEq

/-- A Python `float` value, represented exactly: every IEEE-754 double is
the dyadic rational `mantissa / 2 ^ exp`. -/
structure PyFloat where
  mantissa : Int
  exp : Nat
deriving DecidableEq

/-- The argument variants the source can actually encode and dispatch on.
`NullArgument` and `ImpulseArgument` are omitted: they inherit the base
`Argument.toBinary` (which raises) and have no entry in `_tags`, so no
code path constructs or consumes their wire form.  A `float` argument is
identified with its 4 IEEE-754 bytes: `FloatArgument.fromBinary` keeps
the bytes it read, and no claim inspects the numeric value. -/
inductive Arg where
  | int (v : Int)
  | float (raw : Bytes)
  | str (s : Bytes)
  | blob (d : Bytes)
  | timetag (v : PyFloat)
  | boolean (b : Bool)
deriving DecidableEq

/-- `Message(address, *arguments)`. -/
structure Message where
  address : Bytes
  arguments : List Arg
deriving DecidableEq

/-- `Bundle(messages, time_tag)`; the source iterates `self.messages`
calling each element's `toBinary`, and every claim about bundles only
needs message elements. -/
structure Bundle where
  messages : List Message
  time_tag : PyFloat

/-- `StringArgument.toBinary`: `struct.pack(">%ds" % length, s)` with
`length = math.ceil((len(s)+1) / 4.0) * 4`, i.e. zero padding up to the
smallest multiple of 4 strictly above `len(s)` (the float arithmetic is
exact for any realistic length). -/
def stringToBinary (s : Bytes) : Bytes :=
  let length := ((s.length + 1 + 3) / 4) * 4
  s ++ List.replicate (length - s.length) 0

/-- `StringArgument.strFromBinary`: find the first NUL, cut the string
there, and resume at `_ceilToMultipleOfFour(null_pos)`.  When there is no
NUL, `null_pos = -1`, so the string is `data[0:-1]` (all but the last
byte) and the leftover is `data[0:]` (the whole buffer). -/
def strFromBinary (data : Bytes) : Bytes × Bytes :=
  let null_pos := pyFindNull data
  let s := pySliceTo data null_pos
  let i := ceilToMultipleOfFour null_pos
  (s, pySliceFrom data i)

/-- `StringArgument.fromBinary`: wrap `strFromBinary` in an argument. -/
def stringArgFromBinary (data : Bytes) : Except PyErr (Arg × Bytes) :=
  let r := strFromBinary data
  .ok (.str r.1, r.2)

/-- `IntArgument.fromBinary`: `struct.unpack(">i", data[:4])`.  On fewer
than 4 bytes `struct.unpack` raises `struct.error`; the source's
`except IndexError` clause never matches (slicing raises no
`IndexError`), so the `OscError` it would raise is dead code and the
untyped `struct.error` escapes. -/
def intFromBinary (data : Bytes) : Except PyErr (Arg × Bytes) :=
  if data.length < 4 then .error .structError
  else .ok (.int (int32FromBytes (data.take 4)), data.drop 4)

/-- `FloatArgument.fromBinary`: same shape as `IntArgument.fromBinary`,
keeping the 4 raw bytes as the float's identity. -/
def floatFromBinary (data : Bytes) : Except PyErr (Arg × Bytes) :=
  if data.length < 4 then .error .structError
  else .ok (.float (data.take 4), data.drop 4)

/-- `BlobArgument.toBinary`: `struct.pack(">i%ds" % length, sz, value)`
with `length = _ceilToMultipleOfFour(sz)`, which zero-pads `value` up to
`length` (`length > sz` always holds, so nothing is truncated). -/
def blobToBinary (d : Bytes) : Bytes :=
  pack32 d.length ++ d ++ List.replicate (ceil4 d.length - d.length) 0

/-- `BlobArgument.fromBinary`: read a 4-byte length (on fewer than 4
bytes `struct.unpack` raises `struct.error`; the `except IndexError`
clauses are again dead), slice `data[4:length+4]` as the blob and resume
at `_ceilToMultipleOfFour(length) + 4`. -/
def blobFromBinary (data : Bytes) : Except PyErr (Arg × Bytes) :=
  if data.length < 4 then .error .structError
  else
    let length := int32FromBytes (data.take 4)
    let index_of_leftover := ceilToMultipleOfFour length + 4
    let blob_data := pySlice data 4 (length + 4)
    .ok (.blob blob_data, pySliceFrom data index_of_leftover)

/-- `long(math.modf(x)[1])`: the integer part of a float, truncated
toward zero (`Int.tdiv` truncates toward zero like Python's `long`). -/
def pyFloatTrunc (x : PyFloat) : Int := Int.tdiv x.mantissa (2 ^ x.exp)

/-- `TimeTagArgument.toBinary`: `fr, sec = math.modf(self.value)` then
`struct.pack(">ll", long(sec), long(fr * 1e9))`.  `fr = value - sec` is
exact, and the product `fr * 1e9` is computed exactly here; the
double-precision multiplication in Python is also exact for every value
used in this file, and each packed field is within the signed 32-bit
range there (out of range, `struct.pack(">l", ...)` would raise). -/
def timeTagToBinary (v : PyFloat) : Bytes :=
  let sec := pyFloatTrunc v
  let frMant := v.mantissa - sec * 2 ^ v.exp
  pack32 sec ++ pack32 (Int.tdiv (frMant * 1000000000) (2 ^ v.exp))

/-- The `typeTag` class attribute of each argument class. -/
def argTypeTag : Arg → Nat
  | .int _ => 105        -- i
  | .float _ => 102      -- f
  | .str _ => 115        -- s
  | .blob _ => 98        -- b
  | .timetag _ => 116    -- t
  | .boolean true => 84  -- T
  | .boolean false => 70 -- F

/-- Each argument class's `toBinary` (`BooleanArgument.toBinary` returns
the empty string). -/
def argToBinary : Arg → Bytes
  | .int v => pack32 v
  | .float raw => raw
  | .str s => stringToBinary s
  | .blob d => blobToBinary d
  | .timetag v => timeTagToBinary v

  | .boolean _ => []

/-- `Message.getTypeTags()` with the default `padWithZeros=True`: the
concatenated tag characters, padded with `_ceilToMultipleOfFour(len(s)) -
len(s)` NULs.  Note the leading comma is *not* part of this string. -/
def getTypeTags (args : List Arg) : Bytes :=
  let s := args.map argTypeTag
  s ++ List.replicate (ceil4 s.length - s.length) 0

/-- `Message.toBinary`: padded address, a bare `","`, the padded tag
characters, then each argument's binary form. -/
def messageToBinary (m : Message) : Bytes :=
  stringToBinary m.address ++ strBytes "," ++ getTypeTags m.arguments
    ++ (m.arguments.map argToBinary).flatten

/-- The module-level `_tags` dict: `{"b", "f", "i", "s"}` only; looking
up any other tag character raises `KeyError`. -/
def tagLookup (t : Nat) : Except PyErr (Bytes → Except PyErr (Arg × Bytes)) :=
  if t = 98 then .ok blobFromBinary
  else if t = 102 then .ok floatFromBinary
  else if t = 105 then .ok intFromBinary
  else if t = 115 then .ok stringArgFromBinary
  else .error .keyError

/-- The argument loop of `Message.fromBinary`: for each tag character,
look up `_tags[type_tag]` and run its `fromBinary` on the remaining
buffer, accumulating arguments in order. -/
def decodeArgs : List Nat → Bytes → Except PyErr (List Arg × Bytes)
  | [], leftover => .ok ([], leftover)
  | t :: ts, leftover =>
    match tagLookup t with
    | .error e => .error e
    | .ok dec =>
      match dec leftover with
      | .error e => .error e
      | .ok (arg, leftover2) =>
        match decodeArgs ts leftover2 with
        | .error e => .error e
        | .ok (args, rest) => .ok (arg :: args, rest)

/-- `Message.fromBinary`: read a padded string as the address (with no
validation of its content), read a padded string as the tag string; if it
is exactly `","` there are no arguments, otherwise decode one argument
per character after the first. -/
def messageFromBinary (data : Bytes) : Except PyErr (Message × Bytes) :=
  let r1 := strFromBinary data
  let r2 := strFromBinary r1.2
  if r2.1 = strBytes "," then .ok (⟨r1.1, []⟩, r2.2)
  else
    match decodeArgs (r2.1.drop 1) r2.2 with
    | .error e => .error e
    | .ok (args, rest) => .ok (⟨r1.1, args⟩, rest)

/-- `Bundle.toBinary`: the 7 characters `"#bundle"` (the source appends
no NUL), the time tag, then each element's binary form preceded by
`IntArgument(len(binary)).toBinary()`. -/
def bundleToBinary (b : Bundle) : Bytes :=
  strBytes "#bundle" ++ timeTagToBinary b.time_tag
    ++ (b.messages.map (fun m =>
          let binary := messageToBinary m
          pack32 binary.length ++ binary)).flatten

/-! ## Helper lemmas -/

/-- A buffer with no NUL byte makes `string.find` return `-1`. -/
theorem pyFindNull_of_no_null {data : Bytes} (h : ∀ b ∈ data, b ≠ 0) :
    pyFindNull data = -1 := by
  induction data with
  | nil => rfl
  | cons b rest ih =>
    have hb : b ≠ 0 := h b (List.mem_cons_self b rest)
    have hr : pyFindNull rest = -1 := ih fun x hx => h x (List.mem_cons_of_mem b hx)
    simp [pyFindNull, hb, hr]

/-- `string.find` locates the NUL right after a NUL-free part. -/
theorem pyFindNull_append_null (l₁ t : Bytes) (h : ∀ b ∈ l₁, b ≠ 0) :
    pyFindNull (l₁ ++ 0 :: t) = l₁.length := by
  induction l₁ with
  | nil => simp [pyFindNull]
  | cons b rest ih =>
    have hb : b ≠ 0 := h b (List.mem_cons_self b rest)
    have hr := ih fun x hx => h x (List.mem_cons_of_mem b hx)
    simp only [List.cons_append, pyFindNull, if_neg hb, List.length_cons,
      List.append_eq]
    rw [hr]
    have : ¬ ((rest.length : Int) < 0) := by omega
    rw [if_neg this]
    omega

/-- The padding target used by `StringArgument.toBinary` agrees with
`_ceilToMultipleOfFour`. -/
theorem stringPad_eq_ceil4 (n : Nat) : ((n + 1 + 3) / 4) * 4 = ceil4 n := by
  simp only [ceil4]
  omega

/-- Decoding a string encoded by `StringArgument.toBinary` (with more
bytes following) recovers exactly the string and the following bytes,
provided the string itself has no NUL byte. -/
theorem strFromBinary_stringToBinary (s t : Bytes) (h : ∀ b ∈ s, b ≠ 0) :
    strFromBinary (stringToBinary s ++ t) = (s, t) := by
  have hk : 1 ≤ ceil4 s.length - s.length := by simp only [ceil4]; omega
  have hlen : (s ++ List.replicate (ceil4 s.length - s.length) (0 : Nat)).length
      = ceil4 s.length := by
    simp only [List.length_append, List.length_replicate, ceil4]
    omega
  have hrep : List.replicate (ceil4 s.length - s.length) (0 : Nat)
      = 0 :: List.replicate (ceil4 s.length - s.length - 1) 0 := by
    conv_lhs => rw [show ceil4 s.length - s.length
        = (ceil4 s.length - s.length - 1) + 1 by omega]
    rfl
  have hfind : pyFindNull (stringToBinary s ++ t) = (s.length : Int) := by
    simp only [stringToBinary, stringPad_eq_ceil4]
    rw [hrep]
    rw [show s ++ (0 :: List.replicate (ceil4 s.length - s.length - 1) 0) ++ t
        = s ++ 0 :: (List.replicate (ceil4 s.length - s.length - 1) 0 ++ t) by simp]
    exact pyFindNull_append_null s _ h
  simp only [strFromBinary, hfind, Prod.mk.injEq]
  constructor
  · have hnn : ¬ ((s.length : Int) < 0) := by omega
    rw [pySliceTo, if_neg hnn, Int.toNat_natCast]
    simp only [stringToBinary, List.append_assoc]
    exact List.take_left' rfl
  · have hge : ceilToMultipleOfFour (s.length : Int) = (ceil4 s.length : Int) :=
      ceilToMultipleOfFour_natCast s.length
    have hnn : ¬ (ceilToMultipleOfFour (s.length : Int) < 0) := by
      rw [hge]; omega
    rw [pySliceFrom, if_neg hnn, hge, Int.toNat_natCast]
    simp only [stringToBinary, stringPad_eq_ceil4]
    exact List.drop_left' hlen

/-! ## Claim theorems -/

/-- C1: the spec claims `decode(encode(m)) == m` with empty remainder for
every well-formed Message.  The code violates this: `Message.toBinary`
writes a bare `","` followed by the tag characters padded *without*
counting the comma, while `Message.fromBinary` consumes the comma as part
of one padded string; already for the argument-less `Message("/foo")`,
decoding its own 13-byte encoding leaves a 1-byte remainder `"\0"`
instead of an empty one. -/
theorem roundtrip_message_leaves_leftover :
    messageFromBinary (messageToBinary ⟨strBytes "/foo", []⟩) =
      .ok (⟨strBytes "/foo", []⟩, [0]) ∧ ([0] : Bytes) ≠ [] := by
  exact ⟨rfl, by decide⟩

/-- C2: the spec claims `Message("/foo", Int32(1), String("bar"))`
encodes to 20 bytes with tag section `",is\0"`.  The code produces 21
bytes: the tag section is the five bytes `",is\0\0"` because the pad is
computed on `"is"` alone. -/
theorem messageToBinary_foo_int_str_21_bytes :
    messageToBinary ⟨strBytes "/foo", [.int 1, .str (strBytes "bar")]⟩ =
      strBytes "/foo" ++ [0, 0, 0, 0] ++ strBytes ",is" ++ [0, 0]
        ++ [0, 0, 0, 1] ++ strBytes "bar" ++ [0] ∧
    (messageToBinary ⟨strBytes "/foo", [.int 1, .str (strBytes "bar")]⟩).length = 21 := by
  exact ⟨by decide, by decide⟩

/-- C3: the spec claims every encoded Message and Bundle has a length
that is a multiple of 4.  The code's `Message("/foo")` encodes to 13
bytes and the empty `Bundle` to 15 bytes (the stray comma byte and the
unterminated 7-byte `"#bundle"` marker break the alignment). -/
theorem encoded_lengths_misaligned :
    (messageToBinary ⟨strBytes "/foo", []⟩).length = 13 ∧
    (bundleToBinary ⟨[], ⟨0, 0⟩⟩).length = 15 := by
  exact ⟨by decide, by decide⟩

/-- C4 counterexample: the claim says a 4-byte blob encodes as a 4-byte
length prefix plus exactly 4 data bytes with no extra zero padding
(8 bytes total).  The code pads the data to `_ceilToMultipleOfFour(4) =
8` bytes, so the encoding is 12 bytes with 4 trailing zeros. -/
theorem blob_four_bytes_padded_to_twelve :
    blobToBinary [1, 2, 3, 4] = [0, 0, 0, 4, 1, 2, 3, 4, 0, 0, 0, 0] ∧
    (blobToBinary [1, 2, 3, 4]).length ≠ 8 := by
  exact ⟨by decide, by decide⟩

/-- C4 amended: both blobs and strings are padded to the smallest
multiple of 4 *strictly greater* than the data length: the blob encoding
is the 4-byte length prefix plus `ceil4` of the data length, the string
encoding has length `ceil4` of the string length, and `ceil4 n` is the
least multiple of 4 strictly above `n`. -/
theorem padding_strictly_greater (d : Bytes) (k : Nat) :
    (blobToBinary d).length = 4 + ceil4 d.length ∧
    (stringToBinary d).length = ceil4 d.length ∧
    d.length < ceil4 d.length ∧
    ceil4 d.length % 4 = 0 ∧
    (d.length < k → k % 4 = 0 → ceil4 d.length ≤ k) := by
  refine ⟨?_, ?_, ?_, ?_, ?_⟩
  · simp only [blobToBinary, pack32, List.length_append, List.length_cons,
      List.length_nil, List.length_replicate, ceil4]
    omega
  · simp only [stringToBinary, List.length_append, List.length_replicate, ceil4]
    omega
  · simp only [ceil4]; omega
  · simp only [ceil4]; omega
  · intro h1 h2; simp only [ceil4] at *; omega

/-- C4 witness: instantiation at the 4-byte blob and the bound 8. -/
theorem padding_strictly_greater_witness :
    (blobToBinary [1, 2, 3, 4]).length = 4 + ceil4 4 ∧ ceil4 4 ≤ 8 :=
  ⟨(padding_strictly_greater [1, 2, 3, 4] 8).1,
   (padding_strictly_greater [1, 2, 3, 4] 8).2.2.2.2 (by decide) (by decide)⟩

/-- C5: the spec claims decoding a truncated buffer for a fixed-size tag
yields the typed `MalformedArgument` error and never an untyped fault.
In the code, `struct.unpack` raises `struct.error` on short input, and
the `except IndexError` handlers that would convert it to `OscError` can
never fire (slicing raises no `IndexError`), so the untyped
`struct.error` escapes for both `i` and `f`. -/
theorem truncated_fixed_size_escapes_struct_error (data : Bytes)
    (h : data.length < 4) :
    intFromBinary data = .error .structError ∧
    floatFromBinary data = .error .structError := by
  constructor
  · simp [intFromBinary, h]
  · simp [floatFromBinary, h]

/-- C5 witness: the 2-byte buffer. -/
theorem truncated_fixed_size_escapes_struct_error_witness :
    intFromBinary [0, 1] = .error .structError ∧
    floatFromBinary [0, 1] = .error .structError :=
  truncated_fixed_size_escapes_struct_error [0, 1] (by decide)

/-- C6: the spec claims the decode registry covers
`{i, f, s, b, T, F, N, I, t}` and that an unknown tag fails with
`UnknownTypeTag`.  The code's `_tags` dict holds only `{b, f, i, s}`;
looking up `T`, `F`, `N`, `I` or `t` raises an untyped `KeyError`, as
does decoding a message whose tag string contains `T`. -/
theorem tags_registry_missing_required_tags :
    tagLookup 105 = .ok intFromBinary ∧
    tagLookup 102 = .ok floatFromBinary ∧
    tagLookup 115 = .ok stringArgFromBinary ∧
    tagLookup 98 = .ok blobFromBinary ∧
    tagLookup 84 = .error .keyError ∧
    tagLookup 70 = .error .keyError ∧
    tagLookup 78 = .error .keyError ∧
    tagLookup 73 = .error .keyError ∧
    tagLookup 116 = .error .keyError ∧
    messageFromBinary (strBytes "/a" ++ [0, 0] ++ strBytes ",T" ++ [0, 0]) =
      .error .keyError := by
  exact ⟨rfl, rfl, rfl, rfl, rfl, rfl, rfl, rfl, rfl, rfl⟩

/-- C7 counterexample: the claim says a buffer with no NUL terminator
fails with `MalformedString`.  The code instead returns successfully:
on `"ab"` the string is the truncated `"a"` and the leftover is the
whole unconsumed buffer. -/
theorem strFromBinary_no_null_returns_truncated :
    strFromBinary [97, 98] = ([97], [97, 98]) := by decide

/-- C7 amended: on a buffer containing no NUL byte,
`StringArgument.strFromBinary` does not fail; it returns the buffer
minus its last byte as the string (`data[0:-1]` with `null_pos = -1`)
and the entire buffer, unconsumed, as the leftover. -/
theorem strFromBinary_no_null_amended (data : Bytes)
    (h : ∀ b ∈ data, b ≠ 0) :
    strFromBinary data = (data.dropLast, data) := by
  have hfind : pyFindNull data = -1 := pyFindNull_of_no_null h
  simp only [strFromBinary, hfind, Prod.mk.injEq]
  constructor
  · rw [pySliceTo, if_pos (by omega : (-1 : Int) < 0), List.dropLast_eq_take]
    congr 1
    omega
  · rw [show ceilToMultipleOfFour (-1) = 0 from by decide]
    rw [pySliceFrom, if_neg (by omega : ¬ ((0 : Int) < 0))]
    simp

/-- C7 witness: the NUL-free buffer `"xyz"`. -/
theorem strFromBinary_no_null_amended_witness :
    strFromBinary [120, 121, 122] = ([120, 121], [120, 121, 122]) :=
  strFromBinary_no_null_amended [120, 121, 122] (by decide)

/-- C8: the spec claims every bundle encoding begins with the 8-byte
literal `"#bundle"` plus a NUL.  The code appends no NUL: the empty
bundle with time tag 16777216 encodes to 15 bytes whose eighth byte is
the time tag's leading byte `0x01`, not a NUL. -/
theorem bundle_marker_missing_null :
    bundleToBinary ⟨[], ⟨16777216, 0⟩⟩ =
      strBytes "#bundle" ++ [1, 0, 0, 0, 0, 0, 0, 0] ∧
    (bundleToBinary ⟨[], ⟨16777216, 0⟩⟩).take 8 ≠ strBytes "#bundle" ++ [0] := by
  exact ⟨by decide, by decide⟩

/-- C9: the spec claims the time-tag fraction is scaled by `2^32` (NTP).
The code computes `long(fr * 1e9)`: for the value 0.5 it packs
500000000, not the NTP value `2^31 = 2147483648`. -/
theorem timetag_fraction_scaled_by_1e9 :
    timeTagToBinary ⟨1, 1⟩ = pack32 0 ++ pack32 500000000 ∧
    timeTagToBinary ⟨1, 1⟩ ≠ pack32 0 ++ pack32 2147483648 := by
  exact ⟨by decide, by decide⟩

/-- C10: `Message.fromBinary` performs no validation of the address: for
any NUL-free address bytes not beginning with `/`, decoding the padded
address followed by the empty tag string `","` succeeds and returns a
Message carrying exactly those bytes as its address, with no error. -/
theorem fromBinary_no_address_validation (s : Bytes)
    (hnull : ∀ b ∈ s, b ≠ 0) (_hslash : s.head? ≠ some 47) :
    messageFromBinary (stringToBinary s ++ stringToBinary (strBytes ",")) =
      .ok (⟨s, []⟩, []) := by
  have h1 : strFromBinary (stringToBinary s ++ stringToBinary (strBytes ",")) =
      (s, stringToBinary (strBytes ",")) := strFromBinary_stringToBinary s _ hnull
  have h2 : strFromBinary (stringToBinary (strBytes ",")) =
      (strBytes ",", []) := by decide
  simp only [messageFromBinary, h1, h2, if_true]

/-- C10 witness: the address `"abc"`, which does not start with `/`. -/
theorem fromBinary_no_address_validation_witness :
    messageFromBinary (stringToBinary [97, 98, 99] ++ stringToBinary (strBytes ",")) =
      .ok (⟨[97, 98, 99], []⟩, []) :=
  fromBinary_no_address_validation [97, 98, 99] (by decide) (by decide)

end Osc
